import Mathlib

/-!
Shallow embedding of the Xiangqi engine: data model (Piece/Board), rules
(move legality, check detection), game engine (selection, history,
undo/redo) and the storage adapter (serialize / apply saved state).
Definitions are translated from the JavaScript sources; coordinates are
modelled as `Int` (JS numbers), grids as nested lists.
-/

/-- Piece side: `'red' | 'black'`. -/
inductive Side where
  | red
  | black
deriving DecidableEq, Repr

/-- `side === 'red' ? 'black' : 'red'` (inline in the engine sources). -/
def Side.opp : Side → Side
  | .red => .black
  | .black => .red

/-- Piece type: `'K'|'A'|'E'|'H'|'R'|'C'|'S'` (General, Advisor, Elephant,
Horse, Rook, Cannon, Soldier). -/
inductive PType where
  | K
  | A
  | E
  | H
  | R
  | C
  | S
deriving DecidableEq, Repr

/-- `class Piece { constructor(type, side) }`. -/
structure Piece where
  type : PType
  side : Side
deriving DecidableEq, Repr

/-- `CONFIG.rows` from config.js. -/
def CONFIG.rows : Nat := 10

/-- `CONFIG.cols` from config.js. -/
def CONFIG.cols : Nat := 9

/-- `Utils.inBounds(row, col, rows, cols)`. -/
def Utils.inBounds (row col : Int) (rows cols : Nat) : Bool :=
  decide (0 ≤ row) && decide (row < (rows : Int)) &&
    decide (0 ≤ col) && decide (col < (cols : Int))

/-- `Utils.inBounds(row, col)` with the default `CONFIG.rows/cols` arguments. -/
def Utils.inBoundsD (row col : Int) : Bool :=
  Utils.inBounds row col CONFIG.rows CONFIG.cols

/-- `class Board { rows; cols; grid }`: grid of `Piece | null` cells. -/
structure Board where
  rows : Nat
  cols : Nat
  grid : List (List (Option Piece))
deriving DecidableEq, Repr

/-- `new Board()`: default-dimension board with an all-null grid. -/
def Board.default : Board :=
  ⟨CONFIG.rows, CONFIG.cols, List.replicate CONFIG.rows (List.replicate CONFIG.cols none)⟩

/-- `Board.getPiece(row, col)`: bounds-checked read, `null` when out of bounds. -/
def Board.getPiece (b : Board) (row col : Int) : Option Piece :=
  if Utils.inBounds row col b.rows b.cols then
    ((b.grid[row.toNat]?).getD [])[col.toNat]?.getD none
  else none

/-- `Board.setPiece(row, col, piece)`: bounds-checked write, no-op when out
of bounds. -/
def Board.setPiece (b : Board) (row col : Int) (piece : Option Piece) : Board :=
  if Utils.inBounds row col b.rows b.cols then
    { b with grid := b.grid.set row.toNat (((b.grid[row.toNat]?).getD []).set col.toNat piece) }
  else b

/-- `Board.movePiece(fromRow, fromCol, toRow, toCol)`: unconditional
relocation returning the captured occupant; no-op returning `captured = null`
when either coordinate is out of bounds. -/
def Board.movePiece (b : Board) (fromRow fromCol toRow toCol : Int) : Option Piece × Board :=
  if ¬ Utils.inBounds fromRow fromCol b.rows b.cols then (none, b)
  else if ¬ Utils.inBounds toRow toCol b.rows b.cols then (none, b)
  else
    let piece := b.getPiece fromRow fromCol
    let captured := b.getPiece toRow toCol
    let b1 := b.setPiece toRow toCol piece
    let b2 := b1.setPiece fromRow fromCol none
    (captured, b2)

/-- `Board.clone()`: deep copy (fresh `Piece` objects in a fresh grid). -/
def Board.clone (b : Board) : Board :=
  { rows := b.rows, cols := b.cols,
    grid := b.grid.map fun row => row.map fun cell => cell.map fun p => ⟨p.type, p.side⟩ }

/-- `Board.getGeneralPosition(side)`: row-major scan for the first `'K'` of
that side. -/
def Board.getGeneralPosition (b : Board) (side : Side) : Option (Int × Int) :=
  (((List.range b.rows).flatMap fun r => (List.range b.cols).map fun c => (r, c)).find? fun rc =>
    match ((b.grid[rc.1]?).getD [])[rc.2]?.getD none with
    | some p => p.type == PType.K && p.side == side
    | none => false).map fun rc => ((rc.1 : Int), (rc.2 : Int))

/-- Clearing loop at the start of `Board.setupInitial`. -/
def Board.cleared (b : Board) : Board :=
  { b with grid := List.replicate b.rows (List.replicate b.cols none) }

/-- `Board.setupInitial()`: the standard 32-piece opening placement. -/
def Board.setupInitial (b : Board) : Board :=
  (b.cleared.setPiece 0 0 (some ⟨.R, .black⟩)
    |>.setPiece 0 1 (some ⟨.H, .black⟩)
    |>.setPiece 0 2 (some ⟨.E, .black⟩)
    |>.setPiece 0 3 (some ⟨.A, .black⟩)
    |>.setPiece 0 4 (some ⟨.K, .black⟩)
    |>.setPiece 0 5 (some ⟨.A, .black⟩)
    |>.setPiece 0 6 (some ⟨.E, .black⟩)
    |>.setPiece 0 7 (some ⟨.H, .black⟩)
    |>.setPiece 0 8 (some ⟨.R, .black⟩)
    |>.setPiece 2 1 (some ⟨.C, .black⟩)
    |>.setPiece 2 7 (some ⟨.C, .black⟩)
    |>.setPiece 3 0 (some ⟨.S, .black⟩)
    |>.setPiece 3 2 (some ⟨.S, .black⟩)
    |>.setPiece 3 4 (some ⟨.S, .black⟩)
    |>.setPiece 3 6 (some ⟨.S, .black⟩)
    |>.setPiece 3 8 (some ⟨.S, .black⟩)
    |>.setPiece 9 0 (some ⟨.R, .red⟩)
    |>.setPiece 9 1 (some ⟨.H, .red⟩)
    |>.setPiece 9 2 (some ⟨.E, .red⟩)
    |>.setPiece 9 3 (some ⟨.A, .red⟩)
    |>.setPiece 9 4 (some ⟨.K, .red⟩)
    |>.setPiece 9 5 (some ⟨.A, .red⟩)
    |>.setPiece 9 6 (some ⟨.E, .red⟩)
    |>.setPiece 9 7 (some ⟨.H, .red⟩)
    |>.setPiece 9 8 (some ⟨.R, .red⟩)
    |>.setPiece 7 1 (some ⟨.C, .red⟩)
    |>.setPiece 7 7 (some ⟨.C, .red⟩)
    |>.setPiece 6 0 (some ⟨.S, .red⟩)
    |>.setPiece 6 2 (some ⟨.S, .red⟩)
    |>.setPiece 6 4 (some ⟨.S, .red⟩)
    |>.setPiece 6 6 (some ⟨.S, .red⟩)
    |>.setPiece 6 8 (some ⟨.S, .red⟩))

/-- `Utils.countPiecesBetween`: number of pieces strictly between two cells on
the same row or column, `-1` if not aligned.  (The JS loop would diverge when
origin and destination coincide; that input is unreachable from the callers,
and the embedding returns 0 there.) -/
def Utils.countPiecesBetween (b : Board) (fromRow fromCol toRow toCol : Int) : Int :=
  if fromRow = toRow then
    let step : Int := if fromCol < toCol then 1 else -1
    ((List.range ((toCol - fromCol).natAbs - 1)).countP fun i =>
      (b.getPiece fromRow (fromCol + step * ((i : Int) + 1))).isSome : Nat)
  else if fromCol = toCol then
    let step : Int := if fromRow < toRow then 1 else -1
    ((List.range ((toRow - fromRow).natAbs - 1)).countP fun i =>
      (b.getPiece (fromRow + step * ((i : Int) + 1)) fromCol).isSome : Nat)
  else -1

/-- `Utils.pathClear`. -/
def Utils.pathClear (b : Board) (fromRow fromCol toRow toCol : Int) : Bool :=
  decide (Utils.countPiecesBetween b fromRow fromCol toRow toCol = 0)

/-- `Utils.inPalace(row, col, side)`. -/
def Utils.inPalace (row col : Int) (side : Side) : Bool :=
  if col < 3 ∨ col > 5 then false
  else match side with
    | .red => decide (7 ≤ row ∧ row ≤ 9)
    | .black => decide (0 ≤ row ∧ row ≤ 2)

/-- `Utils.sign(n)`. -/
def Utils.sign (n : Int) : Int :=
  if n = 0 then 0 else if n > 0 then 1 else -1

/-- `Rules.canBasicMove(board, piece, fromRow, fromCol, toRow, toCol)`:
pure geometric/obstruction legality per piece type. -/
def Rules.canBasicMove (b : Board) (piece : Piece) (fromRow fromCol toRow toCol : Int) : Bool :=
  if fromRow = toRow ∧ fromCol = toCol then false
  else if ¬ Utils.inBoundsD toRow toCol then false
  else
    let target := b.getPiece toRow toCol
    if (match target with | some t => t.side == piece.side | none => false) then false
    else
      let dr := toRow - fromRow
      let dc := toCol - fromCol
      let adr := dr.natAbs
      let adc := dc.natAbs
      match piece.type with
      | .K =>
        Utils.inPalace toRow toCol piece.side && decide (adr + adc = 1)
      | .A =>
        Utils.inPalace toRow toCol piece.side && decide (adr = 1 ∧ adc = 1)
      | .E =>
        if ¬ (adr = 2 ∧ adc = 2) then false
        else
          let midRow := fromRow + Utils.sign dr
          let midCol := fromCol + Utils.sign dc
          if (b.getPiece midRow midCol).isSome then false
          else if piece.side = Side.red ∧ toRow ≤ 4 then false
          else if piece.side = Side.black ∧ toRow ≥ 5 then false
          else true
      | .H =>
        if ¬ ((adr = 2 ∧ adc = 1) ∨ (adr = 1 ∧ adc = 2)) then false
        else if adr = 2 ∧ adc = 1 then
          if (b.getPiece (fromRow + Utils.sign dr) fromCol).isSome then false else true
        else
          if (b.getPiece fromRow (fromCol + Utils.sign dc)).isSome then false else true
      | .R =>
        if ¬ (fromRow = toRow ∨ fromCol = toCol) then false
        else Utils.pathClear b fromRow fromCol toRow toCol
      | .C =>
        if ¬ (fromRow = toRow ∨ fromCol = toCol) then false
        else
          let between := Utils.countPiecesBetween b fromRow fromCol toRow toCol
          match target with
          | none => decide (between = 0)
          | some _ => decide (between = 1)
      | .S =>
        let dir : Int := if piece.side = Side.red then -1 else 1
        let crossedRiver : Bool :=
          if piece.side = Side.red then decide (fromRow ≤ 4) else decide (fromRow ≥ 5)
        if ¬ (adr + adc = 1) then false
        else if dr = dir ∧ dc = 0 then true
        else if crossedRiver ∧ dr = 0 ∧ adc = 1 then true
        else false

/-- `Rules.isFacingGeneral(board)`: the two Generals share a column with no
piece strictly between them. -/
def Rules.isFacingGeneral (b : Board) : Bool :=
  match b.getGeneralPosition Side.red, b.getGeneralPosition Side.black with
  | some redK, some blackK =>
    if redK.2 ≠ blackK.2 then false
    else decide (Utils.countPiecesBetween b redK.1 redK.2 blackK.1 blackK.2 = 0)
  | _, _ => false

/-- `Rules.canPieceAttackSquare`: alias for `canBasicMove`. -/
def Rules.canPieceAttackSquare (b : Board) (piece : Piece) (fromRow fromCol toRow toCol : Int) : Bool :=
  Rules.canBasicMove b piece fromRow fromCol toRow toCol

/-- `Rules.isInCheck(board, side)`: some opposing piece can reach that side's
General square per `canPieceAttackSquare`. -/
def Rules.isInCheck (b : Board) (side : Side) : Bool :=
  match b.getGeneralPosition side with
  | none => false
  | some kingPos =>
    (List.range b.rows).any fun r => (List.range b.cols).any fun c =>
      match b.getPiece (r : Int) (c : Int) with
      | none => false
      | some p =>
        if p.side = side then false
        else Rules.canPieceAttackSquare b p (r : Int) (c : Int) kingPos.1 kingPos.2

/-- `Rules.isLegalMove(board, fromRow, fromCol, toRow, toCol, side)`:
geometric legality, then simulate on a clone and reject facing-generals or
self-check positions. -/
def Rules.isLegalMove (b : Board) (fromRow fromCol toRow toCol : Int) (side : Side) : Bool :=
  match b.getPiece fromRow fromCol with
  | none => false
  | some piece =>
    if piece.side ≠ side then false
    else if ¬ Rules.canBasicMove b piece fromRow fromCol toRow toCol then false
    else
      let nb := (Board.movePiece b.clone fromRow fromCol toRow toCol).2
      if Rules.isFacingGeneral nb then false
      else if Rules.isInCheck nb side then false
      else true

/-- `Rules.getLegalMovesForPiece(board, row, col)`: row-major enumeration of
legal destinations. -/
def Rules.getLegalMovesForPiece (b : Board) (row col : Int) : List (Int × Int) :=
  match b.getPiece row col with
  | none => []
  | some piece =>
    (List.range b.rows).flatMap fun r =>
      ((List.range b.cols).filter fun c =>
        Rules.isLegalMove b row col (r : Int) (c : Int) piece.side).map fun c =>
          ((r : Int), (c : Int))

/-- `Rules.generateLegalMoves(board, side)`: all legal moves of a side,
origin-major then destination-major. -/
def Rules.generateLegalMoves (b : Board) (side : Side) : List ((Int × Int) × (Int × Int)) :=
  (List.range b.rows).flatMap fun r =>
    (List.range b.cols).flatMap fun c =>
      match b.getPiece (r : Int) (c : Int) with
      | none => []
      | some p =>
        if p.side = side then
          (Rules.getLegalMovesForPiece b (r : Int) (c : Int)).map fun m =>
            (((r : Int), (c : Int)), m)
        else []

/-- `Rules.isCheckmate(board, side)`. -/
def Rules.isCheckmate (b : Board) (side : Side) : Bool :=
  if ¬ Rules.isInCheck b side then false
  else (Rules.generateLegalMoves b side).isEmpty

/-- `Rules.isStalemate(board, side)`. -/
def Rules.isStalemate (b : Board) (side : Side) : Bool :=
  if Rules.isInCheck b side then false
  else (Rules.generateLegalMoves b side).isEmpty

/-- History entry pushed by `GameEngine.selectSquare`: cloned boards before
and after the move plus the side that moved. -/
structure HEntry where
  before : Board
  after : Board
  side : Side
deriving DecidableEq, Repr

/-- `class GameEngine` state. -/
structure GameEngine where
  board : Board
  sideToMove : Side
  selected : Option (Int × Int)
  history : List HEntry
  redoStack : List HEntry
  gameOver : Bool
  gameOverReason : String
deriving DecidableEq, Repr

/-- Side display name used in game-over messages. -/
def sideName (s : Side) : String :=
  match s with
  | .red => "红方"
  | .black => "黑方"

/-- `GameEngine.newGame()`. -/
def GameEngine.newGame (e : GameEngine) : GameEngine :=
  { board := e.board.setupInitial, sideToMove := Side.red, selected := none,
    history := [], redoStack := [], gameOver := false, gameOverReason := "" }

/-- `new GameEngine()`: constructor field initialisation followed by
`newGame()`. -/
def GameEngine.init : GameEngine :=
  GameEngine.newGame ⟨Board.default, Side.red, none, [], [], false, ""⟩

/-- `GameEngine.selectSquare(row, col)`: select an own piece, or play the
selected piece to a legal destination (history push, redo-stack clear, turn
flip, terminal-state detection). Returns the JS boolean result paired with
the updated engine. -/
def GameEngine.selectSquare (e : GameEngine) (row col : Int) : Bool × GameEngine :=
  if e.gameOver then (false, e)
  else
    let clicked := e.board.getPiece row col
    if (match clicked with | some p => p.side == e.sideToMove | none => false) then
      (true, { e with selected := some (row, col) })
    else
      match e.selected with
      | none => (false, e)
      | some sel =>
        if Rules.isLegalMove e.board sel.1 sel.2 row col e.sideToMove then
          let before := e.board.clone
          let mv := e.board.movePiece sel.1 sel.2 row col
          let after := mv.2.clone
          let hist := ({ before := before, after := after, side := e.sideToMove } : HEntry) :: e.history
          let enemy := e.sideToMove.opp
          let checkmate := Rules.isCheckmate mv.2 enemy
          let stalemate := Rules.isStalemate mv.2 enemy
          if checkmate then
            (true, { board := mv.2, sideToMove := enemy, selected := none, history := hist,
                     redoStack := [], gameOver := true,
                     gameOverReason := sideName enemy ++ "被将死，" ++ sideName enemy.opp ++ "胜！" })
          else if stalemate then
            (true, { board := mv.2, sideToMove := enemy, selected := none, history := hist,
                     redoStack := [], gameOver := true,
                     gameOverReason := "双方僵局，无合法着法。" })
          else
            (true, { board := mv.2, sideToMove := enemy, selected := none, history := hist,
                     redoStack := [], gameOver := e.gameOver, gameOverReason := e.gameOverReason })
        else (false, e)

/-- `GameEngine.undo()`: pop the latest history entry onto the redo stack,
restore its pre-move board, roll the turn back, clear game-over state. -/
def GameEngine.undo (e : GameEngine) : Bool × GameEngine :=
  match e.history with
  | [] => (false, e)
  | last :: rest =>
    (true, { board := last.before.clone, sideToMove := last.side, selected := none,
             history := rest,
             redoStack := ({ before := last.before, after := last.after, side := last.side } : HEntry) :: e.redoStack,
             gameOver := false, gameOverReason := "" })

/-- `GameEngine.redo()`: pop the latest redo entry, restore its post-move
board, set the turn to the mover's opponent. The entry is not pushed back
onto `history`, and `gameOver` is left as it was. -/
def GameEngine.redo (e : GameEngine) : Bool × GameEngine :=
  match e.redoStack with
  | [] => (false, e)
  | next :: rest =>
    (true, { board := next.after.clone, sideToMove := next.side.opp, selected := none,
             history := e.history, redoStack := rest,
             gameOver := e.gameOver, gameOverReason := e.gameOverReason })

/-- Serialized cell payload `{ t, s }`. -/
structure PieceData where
  t : PType
  s : Side
deriving DecidableEq, Repr

/-- Saved-state shape accepted by `StorageAdapter.applyToEngine`.
`sideToMove = none` models any JS value other than `'red'`/`'black'`;
`grid = none` models a value that is not an array. -/
structure SaveState where
  sideToMove : Option Side
  grid : Option (List (List (Option PieceData)))
deriving DecidableEq, Repr

/-- `StorageAdapter.serializeEngine(engine)`: `{ sideToMove, grid }` with
cells mapped to `{ t, s }` or `null`. -/
def StorageAdapter.serializeEngine (e : GameEngine) : SaveState :=
  { sideToMove := some e.sideToMove,
    grid := some (e.board.grid.map fun row => row.map fun cell =>
      cell.map fun p => ({ t := p.type, s := p.side } : PieceData)) }

/-- Inner column loop of `applyToEngine`: `data.grid[r][c]` reads past the
end of an existing row yield `undefined`, which the `cell ? ... : null`
test treats as an empty cell. -/
def StorageAdapter.buildRow (row : List (Option PieceData)) (cols : Nat) : List (Option Piece) :=
  (List.range cols).map fun c =>
    ((row[c]?).getD none).map fun pd => ({ type := pd.t, side := pd.s } : Piece)

/-- Row loop of `applyToEngine` over the listed row indices: accessing a
missing row (`data.grid[r]` is `undefined`) throws in JS, modelled as
`none`. -/
def StorageAdapter.buildGrid (g : List (List (Option PieceData))) (cols : Nat) :
    List Nat → Option (List (List (Option Piece)))
  | [] => some []
  | r :: rs =>
    match g[r]? with
    | none => none
    | some row =>
      match StorageAdapter.buildGrid g cols rs with
      | none => none
      | some rest => some (StorageAdapter.buildRow row cols :: rest)

/-- `StorageAdapter.applyToEngine(data, engine)`: rebuild a default-dimension
board from the saved grid and reset the engine around it; any failure
(null data, non-array grid, missing row) returns `false` with the engine
untouched. -/
def StorageAdapter.applyToEngine (data : Option SaveState) (e : GameEngine) : Bool × GameEngine :=
  match data with
  | none => (false, e)
  | some d =>
    match d.grid with
    | none => (false, e)
    | some g =>
      let b0 := Board.default
      match StorageAdapter.buildGrid g b0.cols (List.range b0.rows) with
      | none => (false, e)
      | some ng =>
        (true, { board := { b0 with grid := ng },
                 sideToMove := match d.sideToMove with | some Side.black => Side.black | _ => Side.red,
                 selected := none, history := [], redoStack := [],
                 gameOver := false, gameOverReason := "" })

/-- Engine states reachable through the public API, starting from
`new GameEngine()`. -/
inductive Reachable : GameEngine → Prop where
  | init : Reachable GameEngine.init
  | newGameStep (e : GameEngine) : Reachable e → Reachable e.newGame
  | selectStep (e : GameEngine) (row col : Int) :
      Reachable e → Reachable (e.selectSquare row col).2
  | undoStep (e : GameEngine) : Reachable e → Reachable e.undo.2
  | redoStep (e : GameEngine) : Reachable e → Reachable e.redo.2

/-- Formalisation of the claim hypothesis "no opposing non-General piece can
reach `side`'s General square per `canBasicMove`", as the same grid scan that
`isInCheck` performs but restricted to non-General attackers. -/
def nonGeneralAttackerExists (b : Board) (side : Side) : Bool :=
  match b.getGeneralPosition side with
  | none => false
  | some kingPos =>
    (List.range b.rows).any fun r => (List.range b.cols).any fun c =>
      match b.getPiece (r : Int) (c : Int) with
      | none => false
      | some p =>
        if p.side = side then false
        else if p.type = PType.K then false
        else Rules.canBasicMove b p (r : Int) (c : Int) kingPos.1 kingPos.2

/-! ## Helper lemmas -/

/-- Cloning a board is the identity on the board value. -/
theorem Board.clone_eq (b : Board) : b.clone = b := by
  have h : (fun cell : Option Piece => cell.map fun p => (⟨p.type, p.side⟩ : Piece)) = id := by
    funext cell
    cases cell <;> rfl
  simp [Board.clone, h]

/-- The two palaces are disjoint. -/
theorem inPalace_opp (row col : Int) (side : Side)
    (h : Utils.inPalace row col side = true) :
    Utils.inPalace row col side.opp = false := by
  cases side <;>
    · simp only [Utils.inPalace, Side.opp] at h ⊢
      split at h
      · exact absurd h (by simp)
      · split
        · rfl
        · rw [decide_eq_true_eq] at h
          rw [decide_eq_false_iff_not]
          omega

/-- A side has exactly two values, so a different side is the opposite. -/
theorem Side.eq_opp_of_ne {a b : Side} (h : a ≠ b) : a = b.opp := by
  cases a <;> cases b <;> simp_all [Side.opp]

/-- A General's basic move is rejected whenever the destination lies outside
its own palace. -/
theorem canBasicMove_K_false (b : Board) (p : Piece) (fromRow fromCol toRow toCol : Int)
    (hK : p.type = PType.K) (hpal : Utils.inPalace toRow toCol p.side = false) :
    Rules.canBasicMove b p fromRow fromCol toRow toCol = false := by
  unfold Rules.canBasicMove
  simp only [hK]
  split
  · rfl
  · split
    · rfl
    · split
      · rfl
      · simp [hpal]

/-! ## C1 -/

/-- C1: `isLegalMove` never returns true for a move whose simulated result
(clone the board, apply the move) leaves the mover's own General in check per
`isInCheck`, nor for one whose simulated result has the two Generals facing
each other on an open file per `isFacingGeneral`. -/
theorem isLegalMove_no_self_exposure (b : Board) (fromRow fromCol toRow toCol : Int) (side : Side)
    (h : Rules.isLegalMove b fromRow fromCol toRow toCol side = true) :
    Rules.isFacingGeneral (Board.movePiece b.clone fromRow fromCol toRow toCol).2 = false ∧
    Rules.isInCheck (Board.movePiece b.clone fromRow fromCol toRow toCol).2 side = false := by
  unfold Rules.isLegalMove at h
  cases hp : b.getPiece fromRow fromCol with
  | none => rw [hp] at h; exact absurd h (by simp)
  | some piece =>
    rw [hp] at h
    simp only at h
    split_ifs at h with h1 h2 h3 h4
    exact ⟨by simpa using h3, by simpa using h4⟩

set_option maxRecDepth 200000 in
/-- C1 witness: the opening Red soldier push (6,4)→(5,4) is legal, and its
simulated result is neither a facing-generals position nor self-check. -/
theorem isLegalMove_no_self_exposure_witness :
    Rules.isLegalMove GameEngine.init.board 6 4 5 4 Side.red = true ∧
    (Rules.isFacingGeneral (Board.movePiece GameEngine.init.board.clone 6 4 5 4).2 = false ∧
     Rules.isInCheck (Board.movePiece GameEngine.init.board.clone 6 4 5 4).2 Side.red = false) :=
  ⟨by decide, isLegalMove_no_self_exposure GameEngine.init.board 6 4 5 4 Side.red (by decide)⟩

/-! ## C2 -/

/-- Engine state in which the Red General's square (9,4) is selected on the
opening board with Red to move. -/
def selEngine : GameEngine :=
  { GameEngine.init with selected := some (9, 4) }

set_option maxRecDepth 200000 in
/-- C2 counterexample: with a Red piece selected and Red to move, clicking the
square (9,0), which holds another Red piece (a Rook), returns `true` — not
`false` — and moves the selection to the clicked square instead of leaving it
unchanged. -/
theorem selectSquare_ownPiece_counterexample :
    selEngine.sideToMove = Side.red ∧
    selEngine.selected = some (9, 4) ∧
    selEngine.board.getPiece 9 4 = some ⟨PType.K, Side.red⟩ ∧
    selEngine.board.getPiece 9 0 = some ⟨PType.R, Side.red⟩ ∧
    (selEngine.selectSquare 9 0).1 = true ∧
    (selEngine.selectSquare 9 0).2.selected = some (9, 0) := by
  decide

/-- C2 amended: for every engine state in which the game is not over and the
clicked square holds a piece of the side to move, `selectSquare` returns
`true` and re-selects the clicked square, leaving every other field
unchanged. -/
theorem selectSquare_ownPiece_reselects (e : GameEngine) (row col : Int) (p : Piece)
    (hgo : e.gameOver = false) (hp : e.board.getPiece row col = some p)
    (hside : p.side = e.sideToMove) :
    e.selectSquare row col = (true, { e with selected := some (row, col) }) := by
  unfold GameEngine.selectSquare
  rw [hgo, hp]
  simp [hside]

set_option maxRecDepth 200000 in
/-- C2 amended witness: on the opening engine, clicking the Red Rook at (9,0)
selects it and returns `true`. -/
theorem selectSquare_ownPiece_reselects_witness :
    GameEngine.init.selectSquare 9 0 = (true, { GameEngine.init with selected := some (9, 0) }) :=
  selectSquare_ownPiece_reselects GameEngine.init 9 0 ⟨PType.R, Side.red⟩
    (by decide) (by decide) (by decide)

/-! ## C4 -/

/-- C4 amended: for every engine state whose board equals the most recent
history entry's post-move snapshot and whose side to move is the opposite of
that entry's mover (as holds immediately after a committed move), `undo()`
returns true and a following `redo()` restores the board cell-for-cell and
`sideToMove` to their pre-undo values. -/
theorem undo_redo_roundtrip (e : GameEngine) (entry : HEntry) (rest : List HEntry)
    (hh : e.history = entry :: rest) (hb : e.board = entry.after)
    (hs : e.sideToMove = entry.side.opp) :
    e.undo.1 = true ∧ e.undo.2.redo.1 = true ∧
    e.undo.2.redo.2.board = e.board ∧ e.undo.2.redo.2.sideToMove = e.sideToMove := by
  simp [GameEngine.undo, GameEngine.redo, hh, hb, hs, Board.clone_eq]

/-- C4 amended witness: a concrete one-entry engine state satisfying the
move-committed invariant, on which undo-then-redo restores board and side. -/
theorem undo_redo_roundtrip_witness :
    ({ board := (Board.default.setPiece 0 0 (some ⟨PType.R, Side.black⟩)),
       sideToMove := Side.black, selected := none,
       history := [{ before := Board.default,
                     after := Board.default.setPiece 0 0 (some ⟨PType.R, Side.black⟩),
                     side := Side.red }],
       redoStack := [], gameOver := false, gameOverReason := "" } : GameEngine).undo.1 = true ∧
    ({ board := (Board.default.setPiece 0 0 (some ⟨PType.R, Side.black⟩)),
       sideToMove := Side.black, selected := none,
       history := [{ before := Board.default,
                     after := Board.default.setPiece 0 0 (some ⟨PType.R, Side.black⟩),
                     side := Side.red }],
       redoStack := [], gameOver := false, gameOverReason := "" } : GameEngine).undo.2.redo.2.board =
      Board.default.setPiece 0 0 (some ⟨PType.R, Side.black⟩) := by
  have h := undo_redo_roundtrip
    { board := (Board.default.setPiece 0 0 (some ⟨PType.R, Side.black⟩)),
      sideToMove := Side.black, selected := none,
      history := [{ before := Board.default,
                    after := Board.default.setPiece 0 0 (some ⟨PType.R, Side.black⟩),
                    side := Side.red }],
      redoStack := [], gameOver := false, gameOverReason := "" }
    { before := Board.default,
      after := Board.default.setPiece 0 0 (some ⟨PType.R, Side.black⟩),
      side := Side.red }
    [] rfl rfl rfl
  exact ⟨h.1, h.2.2.1⟩

/-- A reachable engine state with one history entry whose board does not
match that entry's post-move snapshot: play the moves (6,4)→(5,4) (Red) and
(3,4)→(4,4) (Black), then undo and redo the Black move.  `redo` popped the
Black entry without pushing it back onto history, so the remaining history
top is the Red entry while the live board shows the Black move played. -/
def staleHistoryEngine : GameEngine :=
  ((((GameEngine.init.selectSquare 6 4).2.selectSquare 5 4).2.selectSquare 3 4).2.selectSquare
      4 4).2.undo.2.redo.2

set_option maxRecDepth 1000000 in
set_option maxHeartbeats 4000000 in
/-- C4 counterexample: `staleHistoryEngine` is reachable and has a history
entry, and `undo()` (returning true) followed by `redo()` does not restore
`sideToMove` (nor the board): it replays the earlier Red move instead of the
undone position. -/
theorem undo_redo_roundtrip_counterexample :
    Reachable staleHistoryEngine ∧
    staleHistoryEngine.history ≠ [] ∧
    staleHistoryEngine.undo.1 = true ∧
    staleHistoryEngine.undo.2.redo.2.sideToMove ≠ staleHistoryEngine.sideToMove ∧
    staleHistoryEngine.undo.2.redo.2.board.getPiece 4 4 ≠ staleHistoryEngine.board.getPiece 4 4 := by
  constructor
  · unfold staleHistoryEngine
    exact Reachable.redoStep _ (Reachable.undoStep _ (Reachable.selectStep _ 4 4
      (Reachable.selectStep _ 3 4 (Reachable.selectStep _ 5 4
        (Reachable.selectStep _ 6 4 Reachable.init)))))
  · decide

/-! ## C8 -/

/-- C8: out-of-bounds coordinates are rejected silently by the Board
accessors: `getPiece` returns empty, `setPiece` leaves the board unchanged,
and `movePiece` with an out-of-bounds origin or destination leaves the board
unchanged and returns `captured = empty`. -/
theorem board_accessors_oob_safe (b : Board) (r c fr fc tr tc : Int) (p : Option Piece)
    (hout : Utils.inBounds r c b.rows b.cols = false)
    (hmove : Utils.inBounds fr fc b.rows b.cols = false ∨
      Utils.inBounds tr tc b.rows b.cols = false) :
    b.getPiece r c = none ∧ b.setPiece r c p = b ∧ b.movePiece fr fc tr tc = (none, b) := by
  refine ⟨?_, ?_, ?_⟩
  · simp [Board.getPiece, hout]
  · simp [Board.setPiece, hout]
  · rcases hmove with h | h
    · simp [Board.movePiece, h]
    · by_cases h2 : Utils.inBounds fr fc b.rows b.cols = true
      · simp [Board.movePiece, h, h2]
      · simp only [Bool.not_eq_true] at h2
        simp [Board.movePiece, h2]

/-- C8 witness: concrete out-of-bounds accesses on the default board. -/
theorem board_accessors_oob_safe_witness :
    Board.default.getPiece (-1) 0 = none ∧
    Board.default.setPiece (-1) 0 (some ⟨PType.R, Side.red⟩) = Board.default ∧
    Board.default.movePiece 10 0 0 0 = (none, Board.default) :=
  board_accessors_oob_safe Board.default (-1) 0 10 0 0 0 (some ⟨PType.R, Side.red⟩)
    (by decide) (Or.inl (by decide))

/-! ## C10 -/

/-- `setPiece` never changes the board dimensions. -/
theorem Board.setPiece_rows (b : Board) (r c : Int) (v : Option Piece) :
    (b.setPiece r c v).rows = b.rows := by
  unfold Board.setPiece
  split <;> rfl

/-- `setPiece` never changes the board dimensions. -/
theorem Board.setPiece_cols (b : Board) (r c : Int) (v : Option Piece) :
    (b.setPiece r c v).cols = b.cols := by
  unfold Board.setPiece
  split <;> rfl

/-- The grid of an in-bounds `setPiece`, with the row at the target index
made explicit. -/
theorem Board.setPiece_grid (b : Board) (r c : Int) (v : Option Piece)
    (row : List (Option Piece))
    (hin : Utils.inBounds r c b.rows b.cols = true)
    (hg : b.grid[r.toNat]? = some row) :
    (b.setPiece r c v).grid = b.grid.set r.toNat (row.set c.toNat v) := by
  unfold Board.setPiece
  rw [if_pos hin]
  rw [hg]
  rfl

/-- C10: `movePiece(r, c, r, c)` on an in-bounds occupied cell removes the
piece entirely (the cell becomes empty) and returns it as `captured`. -/
theorem movePiece_same_square_deletes (b : Board) (r c : Int) (p : Piece)
    (hin : Utils.inBounds r c b.rows b.cols = true)
    (hp : b.getPiece r c = some p) :
    (b.movePiece r c r c).1 = some p ∧ (b.movePiece r c r c).2.getPiece r c = none := by
  have hrow : ∃ row, b.grid[r.toNat]? = some row ∧ row[c.toNat]? = some (some p) := by
    unfold Board.getPiece at hp
    rw [if_pos hin] at hp
    cases hg : b.grid[r.toNat]? with
    | none => rw [hg] at hp; simp at hp
    | some row =>
      rw [hg] at hp
      simp only [Option.getD_some] at hp
      cases hc : row[c.toNat]? with
      | none => rw [hc] at hp; simp at hp
      | some cell =>
        rw [hc] at hp
        simp only [Option.getD_some] at hp
        exact ⟨row, rfl, by rw [hc, hp]⟩
  obtain ⟨row, hg, hc⟩ := hrow
  have hrlen : r.toNat < b.grid.length := by
    by_contra hlen
    rw [List.getElem?_eq_none (by omega)] at hg
    exact Option.noConfusion hg
  have hclen : c.toNat < row.length := by
    by_contra hlen
    rw [List.getElem?_eq_none (by omega)] at hc
    exact Option.noConfusion hc
  have hmv : b.movePiece r c r c = (some p, (b.setPiece r c (some p)).setPiece r c none) := by
    unfold Board.movePiece
    rw [if_neg (by simp [hin]), if_neg (by simp [hin])]
    simp only [hp]
  rw [hmv]
  refine ⟨rfl, ?_⟩
  set b1 := b.setPiece r c (some p) with hb1def
  have hb1grid : b1.grid = b.grid.set r.toNat (row.set c.toNat (some p)) :=
    Board.setPiece_grid b r c (some p) row hin hg
  have hin1 : Utils.inBounds r c b1.rows b1.cols = true := by
    rw [hb1def, Board.setPiece_rows, Board.setPiece_cols]
    exact hin
  have hg1 : b1.grid[r.toNat]? = some (row.set c.toNat (some p)) := by
    rw [hb1grid]
    exact List.getElem?_set_eq_of_lt _ hrlen
  have hb2grid : (b1.setPiece r c none).grid =
      b1.grid.set r.toNat ((row.set c.toNat (some p)).set c.toNat none) :=
    Board.setPiece_grid b1 r c none _ hin1 hg1
  have hin2 : Utils.inBounds r c (b1.setPiece r c none).rows (b1.setPiece r c none).cols = true := by
    rw [Board.setPiece_rows, Board.setPiece_cols]
    exact hin1
  unfold Board.getPiece
  rw [if_pos hin2, hb2grid, hb1grid]
  rw [List.getElem?_set_eq_of_lt _ (by simpa using hrlen)]
  simp only [Option.getD_some]
  rw [List.getElem?_set_eq_of_lt _ (by simpa using hclen)]
  rfl

set_option maxRecDepth 400000 in
/-- C10 witness: removing the Black rook at (0,0) of the opening board via a
same-square move. -/
theorem movePiece_same_square_deletes_witness :
    (GameEngine.init.board.movePiece 0 0 0 0).1 = some ⟨PType.R, Side.black⟩ ∧
    (GameEngine.init.board.movePiece 0 0 0 0).2.getPiece 0 0 = none :=
  movePiece_same_square_deletes GameEngine.init.board 0 0 ⟨PType.R, Side.black⟩
    (by decide) (by decide)

/-! ## C9 -/

/-- C9: `redo()` pops the redone entry from the redo stack but never pushes it
back onto `history`; after `undo()` followed by `redo()` the history is one
entry shorter than before the undo, and a subsequent `undo()` reverts the move
played before the redone one. -/
theorem redo_leaves_history (e' : GameEngine) (z : HEntry) (zs : List HEntry)
    (hz : e'.redoStack = z :: zs)
    (e : GameEngine) (x y : HEntry) (rest : List HEntry)
    (h : e.history = x :: y :: rest) :
    (e'.redo.1 = true ∧ e'.redo.2.history = e'.history ∧ e'.redo.2.redoStack = zs) ∧
    (e.undo.1 = true ∧
     e.undo.2.redo.1 = true ∧
     e.undo.2.redo.2.history = e.undo.2.history ∧
     e.undo.2.redo.2.redoStack = e.redoStack ∧
     e.undo.2.redo.2.history.length + 1 = e.history.length ∧
     e.undo.2.redo.2.undo.1 = true ∧
     e.undo.2.redo.2.undo.2.board = y.before ∧
     e.undo.2.redo.2.undo.2.sideToMove = y.side) := by
  constructor
  · simp [GameEngine.redo, hz]
  · simp [GameEngine.undo, GameEngine.redo, h, Board.clone_eq]

/-- C9 witness: a concrete two-entry history engine on which the
undo/redo/undo sequence behaves as stated. -/
theorem redo_leaves_history_witness :
    (({ board := Board.default, sideToMove := Side.red, selected := none,
        history := [{ before := Board.default.setPiece 0 0 (some ⟨PType.H, Side.black⟩),
                      after := Board.default, side := Side.black },
                    { before := Board.default,
                      after := Board.default.setPiece 0 0 (some ⟨PType.H, Side.black⟩),
                      side := Side.red }],
        redoStack := [], gameOver := false, gameOverReason := "" } : GameEngine).undo.2.redo.2.history.length = 1) := by
  have h := redo_leaves_history
    { board := Board.default, sideToMove := Side.red, selected := none, history := [],
      redoStack := [{ before := Board.default,
                      after := Board.default.setPiece 0 0 (some ⟨PType.H, Side.black⟩),
                      side := Side.red }],
      gameOver := false, gameOverReason := "" }
    { before := Board.default,
      after := Board.default.setPiece 0 0 (some ⟨PType.H, Side.black⟩),
      side := Side.red }
    [] rfl
    { board := Board.default, sideToMove := Side.red, selected := none,
      history := [{ before := Board.default.setPiece 0 0 (some ⟨PType.H, Side.black⟩),
                    after := Board.default, side := Side.black },
                  { before := Board.default,
                    after := Board.default.setPiece 0 0 (some ⟨PType.H, Side.black⟩),
                    side := Side.red }],
      redoStack := [], gameOver := false, gameOverReason := "" }
    { before := Board.default.setPiece 0 0 (some ⟨PType.H, Side.black⟩),
      after := Board.default, side := Side.black }
    { before := Board.default,
      after := Board.default.setPiece 0 0 (some ⟨PType.H, Side.black⟩),
      side := Side.red }
    [] rfl
  have h5 := h.2.2.2.2.2.1
  simp only [List.length_cons, List.length_nil] at h5
  omega

/-! ## C3 -/

/-- Board holding only the two Generals, adjacent on the same file with the
Black General strayed into the Red palace: Black K at (7,4), Red K at (8,4). -/
def adjacentKingsBoard : Board :=
  (Board.default.setPiece 7 4 (some ⟨PType.K, Side.black⟩)).setPiece 8 4
    (some ⟨PType.K, Side.red⟩)

/-- C3 counterexample: on `adjacentKingsBoard` the Generals face each other on
an open file and no opposing non-General piece attacks Black's General square,
yet `isInCheck(board, black)` is `true`: the Red General's one-step
`canBasicMove` reaches (7,4) because that square lies inside the Red palace. -/
theorem isInCheck_facing_counterexample :
    Rules.isFacingGeneral adjacentKingsBoard = true ∧
    nonGeneralAttackerExists adjacentKingsBoard Side.black = false ∧
    Rules.isInCheck adjacentKingsBoard Side.black = true := by
  decide

/-- C3 amended: whenever a side's General stands inside its own palace, the
facing-generals situation is invisible to `isInCheck`: if no opposing
non-General piece can reach that side's General square per `canBasicMove`,
`isInCheck` returns `false` even though `isFacingGeneral` is `true`, because a
General's `canBasicMove` never reaches a square outside its own palace. -/
theorem isInCheck_blind_to_facing (b : Board) (side : Side) (kr kc : Int)
    (hk : b.getGeneralPosition side = some (kr, kc))
    (hpal : Utils.inPalace kr kc side = true)
    (hfg : Rules.isFacingGeneral b = true)
    (hno : nonGeneralAttackerExists b side = false) :
    Rules.isInCheck b side = false := by
  cases hcheck : Rules.isInCheck b side with
  | false => rfl
  | true =>
    exfalso
    unfold Rules.isInCheck at hcheck
    rw [hk] at hcheck
    rw [List.any_eq_true] at hcheck
    obtain ⟨r, hrmem, hr⟩ := hcheck
    rw [List.any_eq_true] at hr
    obtain ⟨c, hcmem, hcpred⟩ := hr
    cases hgp : b.getPiece (r : Int) (c : Int) with
    | none => simp only [hgp] at hcpred; exact Bool.noConfusion hcpred
    | some p =>
      simp only [hgp] at hcpred
      by_cases hside : p.side = side
      · rw [if_pos hside] at hcpred
        exact Bool.noConfusion hcpred
      · rw [if_neg hside] at hcpred
        by_cases hKtype : p.type = PType.K
        · have hpalk : Utils.inPalace kr kc p.side = false := by
            rw [Side.eq_opp_of_ne hside]
            exact inPalace_opp kr kc side hpal
          rw [Rules.canPieceAttackSquare,
            canBasicMove_K_false b p (r : Int) (c : Int) kr kc hKtype hpalk] at hcpred
          exact Bool.noConfusion hcpred
        · have hattacker : nonGeneralAttackerExists b side = true := by
            unfold nonGeneralAttackerExists
            rw [hk]
            rw [List.any_eq_true]
            refine ⟨r, hrmem, ?_⟩
            rw [List.any_eq_true]
            refine ⟨c, hcmem, ?_⟩
            simp only [hgp]
            rw [if_neg hside, if_neg hKtype]
            exact hcpred
          rw [hno] at hattacker
          exact Bool.noConfusion hattacker

/-- C3 amended witness: the standard facing-generals board with each General
inside its own palace — Red K at (9,4), Black K at (0,4), nothing between —
is not reported as check for Black. -/
theorem isInCheck_blind_to_facing_witness :
    Rules.isInCheck
      ((Board.default.setPiece 0 4 (some ⟨PType.K, Side.black⟩)).setPiece 9 4
        (some ⟨PType.K, Side.red⟩)) Side.black = false :=
  isInCheck_blind_to_facing
    ((Board.default.setPiece 0 4 (some ⟨PType.K, Side.black⟩)).setPiece 9 4
      (some ⟨PType.K, Side.red⟩)) Side.black 0 4
    (by decide) (by decide) (by decide) (by decide)

/-! ## C7 -/

/-- C7: for a Cannon moving along its own row or column to an in-bounds
destination distinct from the origin, `canBasicMove` is characterised by
`countPiecesBetween`: an empty destination requires exactly zero pieces
strictly between, a destination holding an enemy piece requires exactly one
(any other count, zero or two-plus, is rejected). -/
theorem cannon_screen_rule (b : Board) (piece : Piece) (fromRow fromCol toRow toCol : Int)
    (hC : piece.type = PType.C)
    (hline : fromRow = toRow ∨ fromCol = toCol)
    (hne : ¬ (fromRow = toRow ∧ fromCol = toCol))
    (hin : Utils.inBoundsD toRow toCol = true) :
    (b.getPiece toRow toCol = none →
      (Rules.canBasicMove b piece fromRow fromCol toRow toCol = true ↔
        Utils.countPiecesBetween b fromRow fromCol toRow toCol = 0)) ∧
    (∀ q : Piece, b.getPiece toRow toCol = some q → q.side ≠ piece.side →
      (Rules.canBasicMove b piece fromRow fromCol toRow toCol = true ↔
        Utils.countPiecesBetween b fromRow fromCol toRow toCol = 1)) := by
  constructor
  · intro hempty
    rcases hline with h | h
    · have hcc : ¬ fromCol = toCol := fun hc => hne ⟨h, hc⟩
      simp [Rules.canBasicMove, hC, hempty, hin, h, hcc]
    · have hrr : ¬ fromRow = toRow := fun hr => hne ⟨hr, h⟩
      simp [Rules.canBasicMove, hC, hempty, hin, h, hrr]
  · intro q htarget hside
    rcases hline with h | h
    · have hcc : ¬ fromCol = toCol := fun hc => hne ⟨h, hc⟩
      simp [Rules.canBasicMove, hC, htarget, hside, hin, h, hcc]
    · have hrr : ¬ fromRow = toRow := fun hr => hne ⟨hr, h⟩
      simp [Rules.canBasicMove, hC, htarget, hside, hin, h, hrr]

/-- Cannon test board: Red Cannon at (4,0), a screen piece at (4,3), an enemy
Rook at (4,6), all on row 4. -/
def cannonBoard : Board :=
  ((Board.default.setPiece 4 0 (some ⟨PType.C, Side.red⟩)).setPiece 4 3
    (some ⟨PType.S, Side.red⟩)).setPiece 4 6 (some ⟨PType.R, Side.black⟩)

/-- C7 witness: with exactly one screen between the Red Cannon at (4,0) and
the enemy Rook at (4,6), the capture is allowed; the screenless slide to the
empty square (4,2) is also allowed. -/
theorem cannon_screen_rule_witness :
    Rules.canBasicMove cannonBoard ⟨PType.C, Side.red⟩ 4 0 4 6 = true ∧
    Rules.canBasicMove cannonBoard ⟨PType.C, Side.red⟩ 4 0 4 2 = true := by
  constructor
  · exact ((cannon_screen_rule cannonBoard ⟨PType.C, Side.red⟩ 4 0 4 6 rfl
      (Or.inl rfl) (by decide) (by decide)).2 ⟨PType.R, Side.black⟩
      (by decide) (by decide)).mpr (by decide)
  · exact ((cannon_screen_rule cannonBoard ⟨PType.C, Side.red⟩ 4 0 4 2 rfl
      (Or.inl rfl) (by decide) (by decide)).1 (by decide)).mpr (by decide)

/-! ## C5 -/

/-- `buildGrid` succeeds and produces one built row per listed index when
every listed row index exists in the saved grid. -/
theorem buildGrid_of_lt (g : List (List (Option PieceData))) (cols : Nat) (idxs : List Nat)
    (h : ∀ r ∈ idxs, r < g.length) :
    StorageAdapter.buildGrid g cols idxs =
      some (idxs.map fun r => StorageAdapter.buildRow (g.getD r []) cols) := by
  induction idxs with
  | nil => rfl
  | cons a as ih =>
    have ha : a < g.length := h a (by simp)
    unfold StorageAdapter.buildGrid
    rw [List.getElem?_eq_getElem ha]
    rw [ih (fun r hr => h r (by simp [hr]))]
    simp [List.getD_eq_getElem?_getD, List.getElem?_eq_getElem ha]

/-- Rebuilding a serialized row of the standard width restores it
cell-for-cell. -/
theorem buildRow_serialize (row : List (Option Piece)) (h : row.length = CONFIG.cols) :
    StorageAdapter.buildRow
      (row.map fun cell => cell.map fun p => ({ t := p.type, s := p.side } : PieceData))
      CONFIG.cols = row := by
  unfold StorageAdapter.buildRow
  apply List.ext_getElem
  · simp [h]
  · intro i h1 h2
    simp only [List.getElem_map, List.getElem_range]
    have hi : i < row.length := by
      simpa [h] using h2
    rw [List.getElem?_map, List.getElem?_eq_getElem hi]
    simp only [Option.map_some', Option.getD_some]
    cases row[i] <;> rfl

/-- Rebuilding a serialized default-dimension grid restores it
cell-for-cell. -/
theorem serialize_roundtrip_grid (grid : List (List (Option Piece)))
    (hr : grid.length = CONFIG.rows) (hc : ∀ row ∈ grid, row.length = CONFIG.cols) :
    StorageAdapter.buildGrid
      (grid.map fun row => row.map fun cell => cell.map fun p =>
        ({ t := p.type, s := p.side } : PieceData))
      CONFIG.cols (List.range CONFIG.rows) = some grid := by
  rw [buildGrid_of_lt _ _ _ (by intro r hrm; rw [List.mem_range] at hrm; simpa [hr] using hrm)]
  congr 1
  apply List.ext_getElem
  · simp [hr]
  · intro i h1 h2
    simp only [List.getElem_map, List.getElem_range]
    have hi : i < grid.length := by
      simpa [hr] using h1
    rw [List.getD_eq_getElem?_getD, List.getElem?_map, List.getElem?_eq_getElem hi]
    simp only [Option.map_some', Option.getD_some]
    exact buildRow_serialize grid[i] (hc _ (List.getElem_mem hi))

/-- C5: applying a serialized engine back onto an engine whose board grid has
the default dimensions succeeds and reproduces the board grid cell-for-cell
and the same `sideToMove`, with selection/history/redo/game-over state
reset. -/
theorem serialize_apply_roundtrip (e : GameEngine)
    (hr : e.board.grid.length = CONFIG.rows)
    (hc : ∀ row ∈ e.board.grid, row.length = CONFIG.cols) :
    StorageAdapter.applyToEngine (some (StorageAdapter.serializeEngine e)) e =
      (true, { board := { Board.default with grid := e.board.grid },
               sideToMove := e.sideToMove, selected := none, history := [],
               redoStack := [], gameOver := false, gameOverReason := "" }) := by
  unfold StorageAdapter.applyToEngine StorageAdapter.serializeEngine
  simp only
  rw [show Board.default.cols = CONFIG.cols from rfl,
    show Board.default.rows = CONFIG.rows from rfl]
  rw [serialize_roundtrip_grid e.board.grid hr hc]
  cases hs : e.sideToMove <;> simp

set_option maxRecDepth 400000 in
/-- C5 witness: the round trip on the freshly constructed opening engine. -/
theorem serialize_apply_roundtrip_witness :
    StorageAdapter.applyToEngine (some (StorageAdapter.serializeEngine GameEngine.init))
        GameEngine.init =
      (true, { board := { Board.default with grid := GameEngine.init.board.grid },
               sideToMove := GameEngine.init.sideToMove, selected := none, history := [],
               redoStack := [], gameOver := false, gameOverReason := "" }) :=
  serialize_apply_roundtrip GameEngine.init (by decide) (by decide)

/-! ## C6 -/

/-- `buildGrid` fails as soon as any listed row index is missing from the
saved grid. -/
theorem buildGrid_none_of_missing (g : List (List (Option PieceData))) (cols : Nat)
    (idxs : List Nat) (r : Nat) (hr : r ∈ idxs) (hnone : g[r]? = none) :
    StorageAdapter.buildGrid g cols idxs = none := by
  induction idxs with
  | nil => cases hr
  | cons a as ih =>
    unfold StorageAdapter.buildGrid
    rcases List.mem_cons.mp hr with rfl | hmem
    · rw [hnone]
    · cases hga : g[a]? with
      | none => rfl
      | some row => rw [ih hmem]

set_option maxRecDepth 400000 in
/-- C6 counterexample: a structurally malformed save — ten rows of the wrong
column count (zero columns each) — is accepted by `applyToEngine`: it returns
`true` and replaces the engine board (missing cells are read as empty), rather
than failing with the engine untouched. -/
theorem applyToEngine_malformed_counterexample :
    (StorageAdapter.applyToEngine
      (some ⟨some Side.red, some (List.replicate 10 ([] : List (Option PieceData)))⟩)
      GameEngine.init).1 = true ∧
    (StorageAdapter.applyToEngine
      (some ⟨some Side.red, some (List.replicate 10 ([] : List (Option PieceData)))⟩)
      GameEngine.init).2.board ≠ GameEngine.init.board := by
  decide

/-- C6 amended: `applyToEngine` returns `false` and leaves the engine
untouched exactly for null data, a non-array grid, or a grid with fewer rows
than the default board; grids with extra rows or rows of the wrong length are
accepted (extra rows ignored, missing cells read as empty). -/
theorem applyToEngine_malformed_rejected (e : GameEngine) (data : Option SaveState)
    (h : data = none ∨ (∃ d, data = some d ∧ d.grid = none) ∨
         (∃ d g, data = some d ∧ d.grid = some g ∧ g.length < CONFIG.rows)) :
    StorageAdapter.applyToEngine data e = (false, e) := by
  rcases h with h | ⟨d, hd, hg⟩ | ⟨d, g, hd, hg, hlen⟩
  · rw [h]; rfl
  · rw [hd]
    unfold StorageAdapter.applyToEngine
    simp only [hg]
  · rw [hd]
    unfold StorageAdapter.applyToEngine
    simp only [hg]
    rw [buildGrid_none_of_missing g Board.default.cols (List.range Board.default.rows) g.length
      (by rw [List.mem_range]; exact hlen) (List.getElem?_eq_none (Nat.le_refl _))]

/-- C6 amended witness: a grid with too few rows (none at all) is rejected and
the opening engine is left untouched. -/
theorem applyToEngine_malformed_rejected_witness :
    StorageAdapter.applyToEngine (some ⟨some Side.red, some []⟩) GameEngine.init =
      (false, GameEngine.init) :=
  applyToEngine_malformed_rejected GameEngine.init (some ⟨some Side.red, some []⟩)
    (Or.inr (Or.inr ⟨⟨some Side.red, some []⟩, [], rfl, rfl, by decide⟩))
